import Mathlib

/-!
A shallow embedding of the core of the `futures-lite` subset in `src/lib.rs`:
the `ready!` short-circuit operation, the function-backed future `PollFn`
(`future::poll_fn`), and the unfold stream `Unfold` (`stream::unfold`) with its
`poll_next` state machine.

Modelling conventions:
* `Poll α` mirrors `std::task::Poll`.
* The suspension context `Context<'_>` is an opaque type parameter `Ctx`.
* Rust `FnMut` closures are modelled by explicit state passing: a closure value
  of type `F` together with an application function that returns the result and
  the updated closure value.
* A future of type `Fut` is polled through a parameter
  `pollFut : Fut → Ctx → Poll Out × Fut`; the second component is the future's
  state after the in-place mutation performed by `Future::poll`.
* The `expect` panic in `Unfold::poll_next` is modelled by returning
  `Except.error` carrying the source's panic message; all non-panicking paths
  return `Except.ok`.
-/

namespace FuturesLite

/-- Mirror of `std::task::Poll`. -/
inductive Poll (α : Type) where
  | Ready : α → Poll α
  | Pending : Poll α
deriving DecidableEq, Repr

/-- The `ready!` operation (src/lib.rs lines 8-16), in continuation style: the
continuation `k` is the rest of the enclosing polling function; on `Pending`
the enclosing function returns `Pending` at once, skipping `k`. -/
def ready {α β : Type} (e : Poll α) (k : α → Poll β) : Poll β :=
  match e with
  | .Ready t => k t
  | .Pending => .Pending

namespace future

/-- Mirror of `future::PollFn<F>`: stores the polling closure value verbatim. -/
structure PollFn (F : Type) where
  f : F

/-- Mirror of `future::poll_fn`: wraps the closure, nothing else. -/
def poll_fn {F : Type} (f : F) : PollFn F :=
  { f := f }

/-- Mirror of `Future::poll` for `PollFn` (src/lib.rs lines 65-67): invoke the stored
closure with the context; `g` is the closure's code, `self.f` its mutable
captured state. -/
def PollFn.poll {F T Ctx : Type} (g : F → Ctx → Poll T × F)
    (self : PollFn F) (cx : Ctx) : Poll T × PollFn F :=
  let r := g self.f cx
  (r.1, { f := r.2 })

/-- Poll a `PollFn` once per context in the list, threading the closure state. -/
def PollFn.pollList {F T Ctx : Type} (g : F → Ctx → Poll T × F)
    (self : PollFn F) : List Ctx → List (Poll T) × PollFn F
  | [] => ([], self)
  | cx :: cxs =>
    let r := PollFn.poll g self cx
    let rest := PollFn.pollList g r.2 cxs
    (r.1 :: rest.1, rest.2)

/-- Call the bare closure once per context in the list (no wrapper involved). -/
def callList {F T Ctx : Type} (g : F → Ctx → Poll T × F)
    (s : F) : List Ctx → List (Poll T) × F
  | [] => ([], s)
  | cx :: cxs =>
    let r := g s cx
    let rest := callList g r.2 cxs
    (r.1 :: rest.1, rest.2)

end future

namespace stream

/-- Mirror of `stream::Unfold<T, F, Fut>`: step closure, optional pending seed, optional
in-flight step future (src/lib.rs lines 106-110). -/
structure Unfold (T F Fut : Type) where
  f : F
  state : Option T
  fut : Option Fut

/-- Mirror of `stream::unfold` (src/lib.rs lines 92-102): seed stored in `state`, no
future in flight. -/
def unfold {T F Fut : Type} (init : T) (f : F) : Unfold T F Fut :=
  { f := f, state := some init, fut := none }

/-- The panic message of the `expect` in `Unfold::poll_next` (src/lib.rs
line 143). -/
def unfoldPanicMsg : String :=
  "Unfold must not be polled after it returned `Poll::Ready(None)`"

/-- Mirror of `Stream::poll_next` for `Unfold` (src/lib.rs lines 132-155).

`callF` applies the `FnMut` step closure (returning the new step future and the
updated closure value); `pollFut` polls a step future (returning the poll
result and the future's post-poll state). The phases mirror the source:

1. `if let Some(state) = this.state.take() { this.fut = Some((this.f)(state)) }`
2. `this.fut.as_mut().expect(...)` — `Except.error` models the panic;
3. `futures_core::ready!(fut.poll(cx))` — on `Pending`, return `Pending` with
   the polled future retained in `fut`;
4. `this.fut = None`, then either re-seed `state` and yield the item, or end. -/
def Unfold.poll_next {T F Fut Item Ctx : Type}
    (callF : F → T → Fut × F)
    (pollFut : Fut → Ctx → Poll (Option (Item × T)) × Fut)
    (this : Unfold T F Fut) (cx : Ctx) :
    Except String (Poll (Option Item) × Unfold T F Fut) :=
  let this1 : Unfold T F Fut :=
    match this.state with
    | some s =>
      let r := callF this.f s
      { f := r.2, state := none, fut := some r.1 }
    | none => this
  match this1.fut with
  | none => .error unfoldPanicMsg
  | some fu =>
    let pr := pollFut fu cx
    match pr.1 with
    | .Pending => .ok (.Pending, { this1 with fut := some pr.2 })
    | .Ready step =>
      let this2 := { this1 with fut := none }
      match step with
      | some it => .ok (.Ready (some it.1), { this2 with state := some it.2 })
      | none => .ok (.Ready none, this2)

/-- Application of a pure (state-free) step closure `g : T → Fut`: the closure
value is unchanged by a call. -/
def callPure {T Fut : Type} (g : T → Fut) (s : T) : Fut × (T → Fut) :=
  (g s, g)

/-- Application of a step closure instrumented with an invocation log: the log
records, in order, every seed the closure is called on. -/
def callLog {T Fut : Type} (gl : (T → Fut) × List T) (s : T) :
    Fut × ((T → Fut) × List T) :=
  (gl.1 s, (gl.1, gl.2 ++ [s]))

/-- Polling an already-computed step result (a future that is immediately
ready): models a pure, always-terminating step function. -/
def pollDone {T Item Ctx : Type} (fu : Option (Item × T)) (_cx : Ctx) :
    Poll (Option (Item × T)) × Option (Item × T) :=
  (.Ready fu, fu)

/-- Polling a step future that reports `Pending` a fixed number of times before
resolving: the first component counts the remaining `Pending` polls. -/
def pollDelay {T Item Ctx : Type} (fu : Nat × Option (Item × T)) (_cx : Ctx) :
    Poll (Option (Item × T)) × (Nat × Option (Item × T)) :=
  match fu.1 with
  | 0 => (.Ready fu.2, fu)
  | k + 1 => (.Pending, (k, fu.2))

/-- The sequence of items determined by the chain of a pure step function
(spec section 8): `some l` when the chain `stp s, stp s1, …` reaches `none`
within `n` applications, producing exactly the items `l`; `none` when `n`
applications do not suffice. -/
def chainList {T Item : Type} (stp : T → Option (Item × T)) :
    Nat → T → Option (List Item)
  | 0, _ => none
  | n + 1, s =>
    match stp s with
    | none => some []
    | some (a, s') =>
      match chainList stp n s' with
      | some l => some (a :: l)
      | none => none

/-- Drive an unfold stream over a pure, immediately-ready step function for at
most `n` polls: `some l` when the stream yields exactly the items `l` and then
reports end-of-stream within `n` polls. -/
def drivePure {T Item Ctx : Type} (cx : Ctx)
    (u : stream.Unfold T (T → Option (Item × T)) (Option (Item × T))) :
    Nat → Option (List Item)
  | 0 => none
  | n + 1 =>
    match stream.Unfold.poll_next callPure pollDone u cx with
    | .error _ => none
    | .ok (.Pending, _) => none
    | .ok (.Ready none, _) => some []
    | .ok (.Ready (some a), u') =>
      match drivePure cx u' n with
      | some l => some (a :: l)
      | none => none

/-- A concrete pure step function over `Nat` seeds used to instantiate the
generic theorems: it never ends, yielding the seed and keeping it. -/
def stepId (k : Nat) : Option (Nat × Nat) :=
  some (k, k)

end stream

namespace future

/-- Instrument a polling closure with an invocation counter: each call
increments the counter by one. -/
def countWrap {F T Ctx : Type} (g : F → Ctx → Poll T × F)
    (p : F × Nat) (cx : Ctx) : Poll T × (F × Nat) :=
  let r := g p.1 cx
  (r.1, (r.2, p.2 + 1))

end future

/-- C5: the `ready!` operation evaluates to the contained value and lets the
enclosing polling function continue when applied to `Ready v`, and makes the
enclosing polling function return `Pending` immediately (the continuation is
never run) when applied to `Pending`. -/
theorem ready_short_circuits {α β : Type} :
    ∀ (v : α) (k : α → Poll β),
      ready (Poll.Ready v) k = k v ∧ ready (Poll.Pending : Poll α) k = Poll.Pending :=
  fun _ _ => ⟨rfl, rfl⟩

/-- C2: polling an unfold stream whose pending-seed slot and in-flight-step
slot are both empty (the state after end-of-stream was reported) panics with
the documented message, for every step closure and every step-future
semantics — it does not return `Pending`, a second `Ready none`, or any other
value. -/
theorem unfold_poll_after_ended {T F Fut Item Ctx : Type}
    (callF : F → T → Fut × F)
    (pollFut : Fut → Ctx → Poll (Option (Item × T)) × Fut)
    (f : F) (cx : Ctx) :
    stream.Unfold.poll_next callF pollFut
        { f := f, state := none, fut := none } cx
      = .error stream.unfoldPanicMsg ∧
    stream.unfoldPanicMsg
      = "Unfold must not be polled after it returned `Poll::Ready(None)`" :=
  ⟨rfl, rfl⟩

theorem pollList_eq_callList {F T Ctx : Type} (g : F → Ctx → Poll T × F) :
    ∀ (cxs : List Ctx) (s : F),
      future.PollFn.pollList g (future.poll_fn s) cxs
        = ((future.callList g s cxs).1,
           future.poll_fn (future.callList g s cxs).2) := by
  intro cxs
  induction cxs with
  | nil => intro s; rfl
  | cons cx cxs ih =>
    intro s
    have hp : future.PollFn.poll g (future.poll_fn s) cx
        = ((g s cx).1, future.poll_fn ((g s cx).2)) := rfl
    simp only [future.PollFn.pollList, future.callList, hp, ih]

theorem pollList_counts_calls {F T Ctx : Type} (g : F → Ctx → Poll T × F) :
    ∀ (cxs : List Ctx) (s : F) (k : Nat),
      ((future.PollFn.pollList (future.countWrap g)
          (future.poll_fn (s, k)) cxs).2).f.2 = k + cxs.length := by
  intro cxs
  induction cxs with
  | nil => intro s k; rfl
  | cons cx cxs ih =>
    intro s k
    have hp : future.PollFn.poll (future.countWrap g)
          (future.poll_fn (s, k)) cx
        = ((g s cx).1, future.poll_fn ((g s cx).2, k + 1)) := rfl
    simp only [future.PollFn.pollList, hp, ih, List.length_cons]
    omega

theorem pollList_always_pending {F T Ctx : Type} :
    ∀ (cxs : List Ctx) (s : F),
      (future.PollFn.pollList (fun t (_ : Ctx) => ((Poll.Pending : Poll T), t))
          (future.poll_fn s) cxs).1
        = List.replicate cxs.length Poll.Pending := by
  intro cxs
  induction cxs with
  | nil => intro s; rfl
  | cons cx cxs ih =>
    intro s
    have hp : future.PollFn.poll
          (fun t (_ : Ctx) => ((Poll.Pending : Poll T), t))
          (future.poll_fn s) cx
        = (Poll.Pending, future.poll_fn s) := rfl
    simp only [future.PollFn.pollList, hp, ih, List.length_cons,
      List.replicate_succ]

/-- C6: polling `poll_fn f` returns exactly the closure's result — one poll
delegates verbatim, a run over any list of contexts is pointwise equal to
calling the closure directly, the instrumented closure is invoked exactly once
per poll (counter equals the number of polls), and the always-`Pending`
closure yields `Pending` on every poll, never `Ready`. -/
theorem poll_fn_transparent {F T Ctx : Type} (g : F → Ctx → Poll T × F)
    (s : F) (cxs : List Ctx) :
    (∀ cx : Ctx, future.PollFn.poll g (future.poll_fn s) cx
        = ((g s cx).1, future.poll_fn (g s cx).2)) ∧
    future.PollFn.pollList g (future.poll_fn s) cxs
      = ((future.callList g s cxs).1,
         future.poll_fn (future.callList g s cxs).2) ∧
    ((future.PollFn.pollList (future.countWrap g)
        (future.poll_fn (s, 0)) cxs).2).f.2 = cxs.length ∧
    (future.PollFn.pollList (fun t (_ : Ctx) => ((Poll.Pending : Poll T), t))
        (future.poll_fn s) cxs).1
      = List.replicate cxs.length Poll.Pending := by
  refine ⟨fun cx => rfl, pollList_eq_callList g cxs s, ?_,
    pollList_always_pending cxs s⟩
  simpa using pollList_counts_calls g cxs s 0

theorem drivePure_eq_chainList {T Item Ctx : Type}
    (stp : T → Option (Item × T)) (cx : Ctx) :
    ∀ (n : Nat) (s : T),
      stream.drivePure cx (stream.unfold s stp) n = stream.chainList stp n s := by
  intro n
  induction n with
  | zero => intro s; rfl
  | succ n ih =>
    intro s
    cases hstp : stp s with
    | none =>
      have hpoll : stream.Unfold.poll_next stream.callPure stream.pollDone
            (stream.unfold s stp) cx
          = .ok (Poll.Ready none, { f := stp, state := none, fut := none }) := by
        simp [stream.Unfold.poll_next, stream.unfold, stream.callPure,
          stream.pollDone, hstp]
      simp [stream.drivePure, stream.chainList, hpoll, hstp]
    | some p =>
      have hpoll : stream.Unfold.poll_next stream.callPure stream.pollDone
            (stream.unfold s stp) cx
          = .ok (Poll.Ready (some p.1), stream.unfold p.2 stp) := by
        simp [stream.Unfold.poll_next, stream.unfold, stream.callPure,
          stream.pollDone, hstp]
      simp [stream.drivePure, stream.chainList, hpoll, hstp, ih]

/-- C1: for every seed `s0` and pure, terminating step function `stp` (the
chain from `s0` reaches `None` within `n` applications, producing the items
`l`), the unfold stream polled to completion yields exactly `l` and then
reports end-of-stream; if `stp s0 = none` the very first poll yields zero
items and reports `Ready none`; and the concrete stream
`unfold 0 (fun k => if k < 3 then some (k, k+1) else none)` yields `[0, 1, 2]`
and then ends. -/
theorem unfold_pure_chain {T Item Ctx : Type} (stp : T → Option (Item × T))
    (s0 : T) (cx : Ctx) (n : Nat) (l : List Item)
    (h : stream.chainList stp n s0 = some l) :
    stream.drivePure cx (stream.unfold s0 stp) n = some l ∧
    (stp s0 = none →
      stream.Unfold.poll_next stream.callPure stream.pollDone
          (stream.unfold s0 stp) cx
        = .ok (Poll.Ready none, { f := stp, state := none, fut := none })) ∧
    stream.drivePure cx
        (stream.unfold 0 (fun k : Nat => if k < 3 then some (k, k + 1) else none)) 4
      = some [0, 1, 2] := by
  refine ⟨by rw [drivePure_eq_chainList stp cx n s0, h], ?_, ?_⟩
  · intro hstp
    simp [stream.Unfold.poll_next, stream.unfold, stream.callPure,
      stream.pollDone, hstp]
  · rw [drivePure_eq_chainList]
    rfl

/-- Witness for C1 at `stp k = if k < 3 then some (k, k+1) else none`,
`s0 = 0`, `n = 4`, `l = [0, 1, 2]`. -/
theorem unfold_pure_chain_witness :
    stream.drivePure ()
        (stream.unfold 0 (fun k : Nat => if k < 3 then some (k, k + 1) else none)) 4
      = some [0, 1, 2] ∧
    ((fun k : Nat => if k < 3 then some (k, k + 1) else none) 0 = none →
      stream.Unfold.poll_next stream.callPure stream.pollDone
          (stream.unfold 0 (fun k : Nat => if k < 3 then some (k, k + 1) else none)) ()
        = .ok (Poll.Ready none,
            { f := fun k : Nat => if k < 3 then some (k, k + 1) else none,
              state := none, fut := none })) ∧
    stream.drivePure ()
        (stream.unfold 0 (fun k : Nat => if k < 3 then some (k, k + 1) else none)) 4
      = some [0, 1, 2] :=
  unfold_pure_chain (fun k : Nat => if k < 3 then some (k, k + 1) else none)
    0 () 4 [0, 1, 2] rfl

/-- C3: the pending-seed slot and the in-flight-step slot are never both
populated at a poll boundary: at construction the seed is stored and no step
is in flight, and after any completed (non-panicking) call to `poll_next` the
slots are not both populated, and they are both empty exactly when that call
reported end-of-stream (`Ready none`). -/
theorem unfold_slot_invariant {T F Fut Item Ctx : Type}
    (callF : F → T → Fut × F)
    (pollFut : Fut → Ctx → Poll (Option (Item × T)) × Fut)
    (init : T) (f : F)
    (u u' : stream.Unfold T F Fut) (cx : Ctx) (r : Poll (Option Item))
    (h : stream.Unfold.poll_next callF pollFut u cx = .ok (r, u')) :
    ((stream.unfold init f : stream.Unfold T F Fut).state = some init ∧
     (stream.unfold init f : stream.Unfold T F Fut).fut = none) ∧
    ¬(u'.state.isSome ∧ u'.fut.isSome) ∧
    ((u'.state = none ∧ u'.fut = none) ↔ r = Poll.Ready none) := by
  obtain ⟨f0, st0, fu0⟩ := u
  refine ⟨⟨rfl, rfl⟩, ?_⟩
  cases st0 with
  | some s =>
    rcases hpr : pollFut (callF f0 s).1 cx with ⟨pr1, fv⟩
    cases pr1 with
    | Pending =>
      simp [stream.Unfold.poll_next, hpr] at h
      obtain ⟨hr, hu⟩ := h
      subst hr hu
      simp
    | Ready step =>
      cases step with
      | none =>
        simp [stream.Unfold.poll_next, hpr] at h
        obtain ⟨hr, hu⟩ := h
        subst hr hu
        simp
      | some it =>
        simp [stream.Unfold.poll_next, hpr] at h
        obtain ⟨hr, hu⟩ := h
        subst hr hu
        simp
  | none =>
    cases fu0 with
    | none => simp [stream.Unfold.poll_next] at h
    | some fu =>
      rcases hpr : pollFut fu cx with ⟨pr1, fv⟩
      cases pr1 with
      | Pending =>
        simp [stream.Unfold.poll_next, hpr] at h
        obtain ⟨hr, hu⟩ := h
        subst hr hu
        simp
      | Ready step =>
        cases step with
        | none =>
          simp [stream.Unfold.poll_next, hpr] at h
          obtain ⟨hr, hu⟩ := h
          subst hr hu
          simp
        | some it =>
          simp [stream.Unfold.poll_next, hpr] at h
          obtain ⟨hr, hu⟩ := h
          subst hr hu
          simp

/-- C4: when the in-flight step future polls `Pending`, `poll_next` returns
`Pending` and preserves all stream state verbatim: the in-flight slot holds
the (in-place polled) step future, the pending-seed slot and the step closure
are unchanged, and the step closure is not invoked. Moreover (Scenario B), for
a step future that is pending exactly once, the first poll returns `Pending`
without advancing the seed and the second poll yields the item and stores the
next seed. -/
theorem unfold_pending_frame {T F Fut Item Ctx : Type}
    (callF : F → T → Fut × F)
    (pollFut : Fut → Ctx → Poll (Option (Item × T)) × Fut)
    (u : stream.Unfold T F Fut) (cx : Ctx) (fu fu' : Fut)
    (hs : u.state = none) (hf : u.fut = some fu)
    (hp : pollFut fu cx = (Poll.Pending, fu')) :
    stream.Unfold.poll_next callF pollFut u cx
      = .ok (Poll.Pending, { u with fut := some fu' }) ∧
    ∀ (A : T → Item) (N : T → T) (s0 : T),
      stream.Unfold.poll_next stream.callPure stream.pollDelay
          (stream.unfold s0 (fun s => (1, some (A s, N s)))) cx
        = .ok (Poll.Pending,
            { f := fun s => (1, some (A s, N s)), state := none,
              fut := some (0, some (A s0, N s0)) }) ∧
      stream.Unfold.poll_next stream.callPure stream.pollDelay
          { f := fun s => (1, some (A s, N s)), state := none,
            fut := some ((0 : Nat), some (A s0, N s0)) } cx
        = .ok (Poll.Ready (some (A s0)),
            { f := fun s => (1, some (A s, N s)), state := some (N s0),
              fut := none }) := by
  refine ⟨?_, fun A N s0 => ⟨rfl, rfl⟩⟩
  obtain ⟨f0, st0, fu0⟩ := u
  simp only at hs hf
  subst hs hf
  simp [stream.Unfold.poll_next, hp]

/-- Witness for C4: a delayed step over natural-number seeds, polled in the
in-flight state. -/
theorem unfold_pending_frame_witness :
    stream.Unfold.poll_next stream.callPure stream.pollDelay
        ({ f := fun s : Nat => ((1 : Nat), some (s, s + 1)), state := none,
           fut := some ((1 : Nat), some ((5 : Nat), (6 : Nat))) }) ()
      = .ok (Poll.Pending,
          { f := fun s : Nat => ((1 : Nat), some (s, s + 1)), state := none,
            fut := some ((0 : Nat), some ((5 : Nat), (6 : Nat))) }) ∧
    ∀ (A : Nat → Nat) (N : Nat → Nat) (s0 : Nat),
      stream.Unfold.poll_next stream.callPure stream.pollDelay
          (stream.unfold s0 (fun s => (1, some (A s, N s)))) ()
        = .ok (Poll.Pending,
            { f := fun s => (1, some (A s, N s)), state := none,
              fut := some (0, some (A s0, N s0)) }) ∧
      stream.Unfold.poll_next stream.callPure stream.pollDelay
          { f := fun s => (1, some (A s, N s)), state := none,
            fut := some ((0 : Nat), some (A s0, N s0)) } ()
        = .ok (Poll.Ready (some (A s0)),
            { f := fun s => (1, some (A s, N s)), state := some (N s0),
              fut := none }) :=
  unfold_pending_frame stream.callPure stream.pollDelay
    { f := fun s : Nat => ((1 : Nat), some (s, s + 1)), state := none,
      fut := some ((1 : Nat), some ((5 : Nat), (6 : Nat))) } ()
    ((1 : Nat), some ((5 : Nat), (6 : Nat)))
    ((0 : Nat), some ((5 : Nat), (6 : Nat))) rfl rfl rfl

/-- Witness for C3: polling the constructed stream `unfold 0 stepId` once with
the pure, immediately-ready step semantics. -/
theorem unfold_slot_invariant_witness :
    ((stream.unfold 9 stream.stepId
        : stream.Unfold Nat (Nat → Option (Nat × Nat)) (Option (Nat × Nat))).state
          = some 9 ∧
     (stream.unfold 9 stream.stepId
        : stream.Unfold Nat (Nat → Option (Nat × Nat)) (Option (Nat × Nat))).fut
          = none) ∧
    ¬(({ f := stream.stepId, state := some 0, fut := none }
        : stream.Unfold Nat (Nat → Option (Nat × Nat)) (Option (Nat × Nat))).state.isSome ∧
      ({ f := stream.stepId, state := some 0, fut := none }
        : stream.Unfold Nat (Nat → Option (Nat × Nat)) (Option (Nat × Nat))).fut.isSome) ∧
    ((({ f := stream.stepId, state := some 0, fut := none }
        : stream.Unfold Nat (Nat → Option (Nat × Nat)) (Option (Nat × Nat))).state = none ∧
      ({ f := stream.stepId, state := some 0, fut := none }
        : stream.Unfold Nat (Nat → Option (Nat × Nat)) (Option (Nat × Nat))).fut = none)
      ↔ Poll.Ready (some 0) = Poll.Ready none) :=
  unfold_slot_invariant stream.callPure stream.pollDone 9 stream.stepId
    (stream.unfold 0 stream.stepId)
    { f := stream.stepId, state := some 0, fut := none } ()
    (Poll.Ready (some 0)) rfl

/-- C7: step execution is sequential. Over the invocation-logging step
closure: a `poll_next` call with no pending seed does not invoke the step
closure at all; a call with pending seed `s` invokes it exactly once, on `s`;
a new pending seed (the only way a later step can start) exists after a call
only if that call reported a yielded item; and when the in-flight step for a
seed completes with `(i, s1)`, that same call yields exactly `i` and stores
`s1` — items appear in the order their steps complete. -/
theorem unfold_sequential_steps {T Fut Item Ctx : Type}
    (pollFut : Fut → Ctx → Poll (Option (Item × T)) × Fut)
    (u u' : stream.Unfold T ((T → Fut) × List T) Fut) (cx : Ctx)
    (r : Poll (Option Item))
    (h : stream.Unfold.poll_next stream.callLog pollFut u cx = .ok (r, u')) :
    (u.state = none → u'.f = u.f) ∧
    (∀ s, u.state = some s → u'.f.1 = u.f.1 ∧ u'.f.2 = u.f.2 ++ [s]) ∧
    (∀ s', u'.state = some s' → ∃ i, r = Poll.Ready (some i)) ∧
    (∀ fu i s1, u.state = none → u.fut = some fu →
      (pollFut fu cx).1 = Poll.Ready (some (i, s1)) →
      r = Poll.Ready (some i) ∧ u'.state = some s1) := by
  obtain ⟨f0, st0, fu0⟩ := u
  cases st0 with
  | some s =>
    rcases hpr : pollFut (f0.1 s) cx with ⟨pr1, fv⟩
    cases pr1 with
    | Pending =>
      simp [stream.Unfold.poll_next, stream.callLog, hpr] at h
      obtain ⟨hr, hu⟩ := h
      subst hr hu
      simp
    | Ready step =>
      cases step with
      | none =>
        simp [stream.Unfold.poll_next, stream.callLog, hpr] at h
        obtain ⟨hr, hu⟩ := h
        subst hr hu
        simp
      | some it =>
        simp [stream.Unfold.poll_next, stream.callLog, hpr] at h
        obtain ⟨hr, hu⟩ := h
        subst hr hu
        simp
  | none =>
    cases fu0 with
    | none => simp [stream.Unfold.poll_next] at h
    | some fu =>
      rcases hpr : pollFut fu cx with ⟨pr1, fv⟩
      cases pr1 with
      | Pending =>
        simp [stream.Unfold.poll_next, hpr] at h
        obtain ⟨hr, hu⟩ := h
        subst hr hu
        simp
        intro fu1 i s1 hfu
        subst hfu
        rw [hpr]
        simp
      | Ready step =>
        cases step with
        | none =>
          simp [stream.Unfold.poll_next, hpr] at h
          obtain ⟨hr, hu⟩ := h
          subst hr hu
          simp
          intro fu1 i s1 hfu
          subst hfu
          rw [hpr]
          simp
        | some it =>
          simp [stream.Unfold.poll_next, hpr] at h
          obtain ⟨hr, hu⟩ := h
          subst hr hu
          simp
          intro fu1 i s1 hfu hres
          subst hfu
          rw [hpr] at hres
          simp at hres
          simp [hres]

/-- Witness for C7: one poll of `unfold 0 (stepId, [])` with the logging step
closure and immediately-ready step semantics. -/
theorem unfold_sequential_steps_witness :
    ((stream.unfold 0 (stream.stepId, ([] : List Nat))
        : stream.Unfold Nat ((Nat → Option (Nat × Nat)) × List Nat)
            (Option (Nat × Nat))).state = none →
      ({ f := (stream.stepId, [0]), state := some 0, fut := none }
        : stream.Unfold Nat ((Nat → Option (Nat × Nat)) × List Nat)
            (Option (Nat × Nat))).f
        = (stream.unfold 0 (stream.stepId, ([] : List Nat))
            : stream.Unfold Nat ((Nat → Option (Nat × Nat)) × List Nat)
                (Option (Nat × Nat))).f) ∧
    (∀ s, (stream.unfold 0 (stream.stepId, ([] : List Nat))
        : stream.Unfold Nat ((Nat → Option (Nat × Nat)) × List Nat)
            (Option (Nat × Nat))).state = some s →
      ({ f := (stream.stepId, [0]), state := some 0, fut := none }
        : stream.Unfold Nat ((Nat → Option (Nat × Nat)) × List Nat)
            (Option (Nat × Nat))).f.1
        = (stream.unfold 0 (stream.stepId, ([] : List Nat))
            : stream.Unfold Nat ((Nat → Option (Nat × Nat)) × List Nat)
                (Option (Nat × Nat))).f.1 ∧
      ({ f := (stream.stepId, [0]), state := some 0, fut := none }
        : stream.Unfold Nat ((Nat → Option (Nat × Nat)) × List Nat)
            (Option (Nat × Nat))).f.2
        = (stream.unfold 0 (stream.stepId, ([] : List Nat))
            : stream.Unfold Nat ((Nat → Option (Nat × Nat)) × List Nat)
                (Option (Nat × Nat))).f.2 ++ [s]) ∧
    (∀ s', ({ f := (stream.stepId, [0]), state := some 0, fut := none }
        : stream.Unfold Nat ((Nat → Option (Nat × Nat)) × List Nat)
            (Option (Nat × Nat))).state = some s' →
      ∃ i, (Poll.Ready (some 0) : Poll (Option Nat)) = Poll.Ready (some i)) ∧
    (∀ fu i s1, (stream.unfold 0 (stream.stepId, ([] : List Nat))
        : stream.Unfold Nat ((Nat → Option (Nat × Nat)) × List Nat)
            (Option (Nat × Nat))).state = none →
      (stream.unfold 0 (stream.stepId, ([] : List Nat))
          : stream.Unfold Nat ((Nat → Option (Nat × Nat)) × List Nat)
              (Option (Nat × Nat))).fut = some fu →
      (stream.pollDone fu ()).1 = Poll.Ready (some (i, s1)) →
      (Poll.Ready (some 0) : Poll (Option Nat)) = Poll.Ready (some i) ∧
      ({ f := (stream.stepId, [0]), state := some 0, fut := none }
        : stream.Unfold Nat ((Nat → Option (Nat × Nat)) × List Nat)
            (Option (Nat × Nat))).state = some s1) :=
  unfold_sequential_steps stream.pollDone
    (stream.unfold 0 (stream.stepId, ([] : List Nat)))
    { f := (stream.stepId, [0]), state := some 0, fut := none } ()
    (Poll.Ready (some 0)) rfl

/-- C10: construction is lazy. `poll_fn f` stores the closure verbatim
(construction leaves the invocation counter at 0; the first poll is the first
invocation, raising it to 1), and `unfold init f` stores the seed in the
pending-seed slot, leaves the in-flight slot empty, and stores the step
closure verbatim (an empty invocation log after construction; the first
successful poll performs the first invocation, on `init`). -/
theorem construction_is_lazy {F T Ctx F2 Fut3 T2 Fut2 Item2 Ctx2 : Type}
    (s : F) (g : F → Ctx → Poll T × F) (cx : Ctx)
    (init : T2) (f2 : F2) (g2 : T2 → Fut2)
    (pollFut : Fut2 → Ctx2 → Poll (Option (Item2 × T2)) × Fut2) (cx2 : Ctx2)
    (r2 : Poll (Option Item2))
    (u2 : stream.Unfold T2 ((T2 → Fut2) × List T2) Fut2)
    (h : stream.Unfold.poll_next stream.callLog pollFut
        (stream.unfold init (g2, [])) cx2 = .ok (r2, u2)) :
    (future.poll_fn s).f = s ∧
    ((future.poll_fn ((s, 0) : F × Nat)).f.2 = 0 ∧
     (future.PollFn.poll (future.countWrap g)
        (future.poll_fn ((s, 0) : F × Nat)) cx).2.f.2 = 1) ∧
    ((stream.unfold init f2 : stream.Unfold T2 F2 Fut3).state = some init ∧
     (stream.unfold init f2 : stream.Unfold T2 F2 Fut3).fut = none ∧
     (stream.unfold init f2 : stream.Unfold T2 F2 Fut3).f = f2) ∧
    ((stream.unfold init (g2, [])
        : stream.Unfold T2 ((T2 → Fut2) × List T2) Fut2).f.2 = [] ∧
     u2.f.2 = [init]) := by
  refine ⟨rfl, ⟨rfl, rfl⟩, ⟨rfl, rfl, rfl⟩, rfl, ?_⟩
  rcases hpr : pollFut (g2 init) cx2 with ⟨pr1, fv⟩
  cases pr1 with
  | Pending =>
    simp [stream.Unfold.poll_next, stream.unfold, stream.callLog, hpr] at h
    obtain ⟨hr, hu⟩ := h
    subst hu
    rfl
  | Ready step =>
    cases step with
    | none =>
      simp [stream.Unfold.poll_next, stream.unfold, stream.callLog, hpr] at h
      obtain ⟨hr, hu⟩ := h
      subst hu
      rfl
    | some it =>
      simp [stream.Unfold.poll_next, stream.unfold, stream.callLog, hpr] at h
      obtain ⟨hr, hu⟩ := h
      subst hu
      rfl

/-- Witness for C10 over concrete closures: one successful poll of
`unfold 0 (stepId, [])` invokes the step closure for the first time, on the
seed `0`. -/
theorem construction_is_lazy_witness :
    (future.poll_fn (7 : Nat)).f = 7 ∧
    ((future.poll_fn (((7 : Nat), 0) : Nat × Nat)).f.2 = 0 ∧
     (future.PollFn.poll
        (future.countWrap (fun (n : Nat) (_ : Unit) => (Poll.Ready n, n + 1)))
        (future.poll_fn (((7 : Nat), 0) : Nat × Nat)) ()).2.f.2 = 1) ∧
    ((stream.unfold 0 stream.stepId
        : stream.Unfold Nat (Nat → Option (Nat × Nat))
            (Option (Nat × Nat))).state = some 0 ∧
     (stream.unfold 0 stream.stepId
        : stream.Unfold Nat (Nat → Option (Nat × Nat))
            (Option (Nat × Nat))).fut = none ∧
     (stream.unfold 0 stream.stepId
        : stream.Unfold Nat (Nat → Option (Nat × Nat))
            (Option (Nat × Nat))).f = stream.stepId) ∧
    ((stream.unfold 0 (stream.stepId, ([] : List Nat))
        : stream.Unfold Nat ((Nat → Option (Nat × Nat)) × List Nat)
            (Option (Nat × Nat))).f.2 = [] ∧
     ({ f := (stream.stepId, [0]), state := some 0, fut := none }
        : stream.Unfold Nat ((Nat → Option (Nat × Nat)) × List Nat)
            (Option (Nat × Nat))).f.2 = [0]) :=
  construction_is_lazy (7 : Nat)
    (fun (n : Nat) (_ : Unit) => (Poll.Ready n, n + 1)) ()
    0 stream.stepId stream.stepId stream.pollDone ()
    (Poll.Ready (some 0))
    { f := (stream.stepId, [0]), state := some 0, fut := none } rfl

end FuturesLite
